import Mathlib

/-!
Verification of the geoBuffer generator (`app.py`).

The Python program is shallowly embedded: Python `dict`s become ordered
association lists (`Dict`) with insert-or-update-in-place semantics matching
CPython's insertion-order preservation, Python `int(...)` becomes `pyInt`,
Python slices become `pySlice`, and the processing functions
(`parse_level_file`, `analyze_chunks`, `generate_geobuffer_list`,
`apply_roller_mapping`, `run_processing`) are translated line by line.
-/

namespace GeoBuffer

/-- A Python `dict` modelled as an ordered association list.  CPython dicts
preserve insertion order; assignment to an existing key updates the value in
place, assignment to a fresh key appends. -/
abbrev Dict (α β : Type) : Type := List (α × β)

/-- Lookup (`d.get(a)` / `d[a]`): first entry whose key equals `a`. -/
def dfind {α β : Type} [DecidableEq α] : Dict α β → α → Option β
  | [], _ => none
  | (k, v) :: rest, a => if k = a then some v else dfind rest a

/-- Assignment `d[k] = v`: update in place if the key is present, else append. -/
def dset {α β : Type} [DecidableEq α] : Dict α β → α → β → Dict α β
  | [], k, v => [(k, v)]
  | (k', v') :: rest, k, v =>
    if k' = k then (k', v) :: rest else (k', v') :: dset rest k v

/-- Python's notion of (ASCII) whitespace, as stripped by `str.strip()`:
space, tab, newline, carriage return, vertical tab and form feed. -/
def pySpace (c : Char) : Bool :=
  c = ' ' ∨ c = '\t' ∨ c = '\n' ∨ c = '\r' ∨ c = Char.ofNat 11 ∨ c = Char.ofNat 12

/-- Python `s.strip()` on the character list of a string. -/
def pyStrip (l : List Char) : List Char :=
  ((l.dropWhile pySpace).reverse.dropWhile pySpace).reverse

/-- Python `int(s)` on a character list: strip surrounding whitespace, accept
an optional sign followed by one or more decimal digits; anything else raises
`ValueError`, modelled as `none`. -/
def pyIntChars (l : List Char) : Option Int :=
  match pyStrip l with
  | [] => none
  | c :: rest =>
    let signAndDigits : Bool × List Char :=
      if c = '-' then (true, rest)
      else if c = '+' then (false, rest)
      else (false, c :: rest)
    let digits := signAndDigits.2
    if digits = [] ∨ ¬ digits.all Char.isDigit then none
    else
      let n : Nat := digits.foldl (fun n ch => n * 10 + (ch.toNat - 48)) 0
      some (if signAndDigits.1 then -(n : Int) else (n : Int))

/-- Python `int(s)` on a string. -/
def pyInt (s : String) : Option Int :=
  pyIntChars s.toList

/-- Python `s.split(',')` on a character list: maximal (possibly empty)
comma-free segments. -/
def splitCommas : List Char → List (List Char)
  | [] => [[]]
  | c :: rest =>
    if c = ',' then [] :: splitCommas rest
    else
      match splitCommas rest with
      | t :: ts => (c :: t) :: ts
      | [] => [[c]]

/-- Python `stripped.rstrip(',')`: drop every trailing comma. -/
def rstrip_commas (l : List Char) : List Char :=
  (l.reverse.dropWhile (fun c => c = ',')).reverse

/-- The token list of a candidate line: strip trailing commas, split on commas
and drop empty tokens (`[p for p in stripped.rstrip(',').split(',') if p != '']`). -/
def line_tokens (stripped : List Char) : List (List Char) :=
  (splitCommas (rstrip_commas stripped)).filter (fun p => p ≠ [])

/-- Python `stripped.lower().startswith("data=")`: the first five characters
are `data=` up to ASCII case. -/
def lower_starts_with_data_eq : List Char → Bool
  | c1 :: c2 :: c3 :: c4 :: c5 :: _ =>
    (c1 = 'd' ∨ c1 = 'D') ∧ (c2 = 'a' ∨ c2 = 'A') ∧ (c3 = 't' ∨ c3 = 'T')
      ∧ (c4 = 'a' ∨ c4 = 'A') ∧ c5 = '='
  | _ => false

/-- Python `[int(val) for val in parts]` with `ValueError` propagating:
all tokens must parse or the whole list is rejected. -/
def parse_int_list : List (List Char) → Option (List Int)
  | [] => some []
  | p :: rest =>
    match pyIntChars p, parse_int_list rest with
    | some v, some vs => some (v :: vs)
    | _, _ => none

/-- One iteration of the `parse_level_file` loop: given the `data_started`
flag and a raw line, return the updated flag and the accepted row, if any. -/
def parse_line (data_started : Bool) (line : String) : Bool × Option (List Int) :=
  let stripped := pyStrip line.toList
  if stripped = [] then (data_started, none)
  else if lower_starts_with_data_eq stripped then (true, none)
  else if data_started ∨ stripped.contains ',' then
    let parts := line_tokens stripped
    if parts.length ≠ 5 then (data_started, none)
    else
      match parse_int_list parts with
      | some row => (data_started, some row)
      | none => (data_started, none)
  else (data_started, none)

/-- The `for line in lines` loop of `parse_level_file`, threading the
`data_started` flag and emitting accepted rows in file order. -/
def parse_level_file_loop : Bool → List String → List (List Int)
  | _, [] => []
  | ds, line :: rest =>
    match parse_line ds line with
    | (ds2, some row) => row :: parse_level_file_loop ds2 rest
    | (ds2, none) => parse_level_file_loop ds2 rest

/-- `parse_level_file` from `app.py`, acting on the list of lines read from
the file: returns the accepted 5-integer rows in file order. -/
def parse_level_file (lines : List String) : List (List Int) :=
  parse_level_file_loop false lines

/-- Resolve one Python slice index against a list of length `len`:
negative indices count from the end, and both ends are clamped to `[0, len]`. -/
def pyIndexClamp (len : Nat) (i : Int) : Nat :=
  if i < 0 then ((len : Int) + i).toNat else min i.toNat len

/-- Python slice `l[a:b]` (step 1). -/
def pySlice {α : Type} (l : List α) (a b : Int) : List α :=
  (l.take (pyIndexClamp l.length b)).drop (pyIndexClamp l.length a)

/-- Python `range(a, b)`. -/
def pyRange (a b : Int) : List Int :=
  (List.range (b - a).toNat).map (fun (i : Nat) => a + (i : Int))

/-- One cell of the inner frequency pass of `analyze_chunks`:
`if item in conv_map: freq[item] = freq.get(item, 0) + 1`. -/
def freq_step (conv_map : Dict Int (Int × Int)) (freq : Dict Int Nat)
    (item : Int) : Dict Int Nat :=
  if (dfind conv_map item).isSome then
    dset freq item ((dfind freq item).getD 0 + 1)
  else freq

/-- The inner frequency pass of `analyze_chunks`: the nested
`for row in window: for item in row:` loops over a fresh `freq` dict. -/
def window_freq (window : List (List Int)) (conv_map : Dict Int (Int × Int)) :
    Dict Int Nat :=
  window.foldl (fun freq row => row.foldl (freq_step conv_map) freq) []

/-- One iteration of the per-window update of `analyze_chunks`:
`if count > max_counts[item_id]: max_counts[item_id] = count`.
Every key of `freq` is a `conv_map` key and hence present in `max_counts`,
so Python's `max_counts[item_id]` never raises; it is embedded as a
defaulted lookup. -/
def max_step (mc : Dict Int Nat) (p : Int × Nat) : Dict Int Nat :=
  if p.2 > (dfind mc p.1).getD 0 then dset mc p.1 p.2 else mc

/-- The `for item_id, count in freq.items():` loop of `analyze_chunks`. -/
def record_window_max (max_counts : Dict Int Nat) (freq : Dict Int Nat) :
    Dict Int Nat :=
  freq.foldl max_step max_counts

/-- One window of the outer loop of `analyze_chunks`: build the frequency
dict of `level_rows[start : start + chunk_size]` and fold it into the
running maxima. -/
def chunk_step (level_rows : List (List Int)) (chunk_size : Int)
    (conv_map : Dict Int (Int × Int)) (mc : Dict Int Nat) (start : Int) :
    Dict Int Nat :=
  record_window_max mc
    (window_freq (pySlice level_rows start (start + chunk_size)) conv_map)

/-- `analyze_chunks` from `app.py`: slide a window of `chunk_size` rows over
`level_rows` one row at a time and record, per item id of `conv_map`, the
maximum occurrence count over all windows.  `chunk_size` is the raw integer
from the GUI, so it is an `Int`, and the window bounds follow Python's
`range` and slice semantics. -/
def analyze_chunks (level_rows : List (List Int)) (chunk_size : Int)
    (conv_map : Dict Int (Int × Int)) : Dict Int Nat :=
  let max_counts : Dict Int Nat := conv_map.map (fun p => (p.1, 0))
  let total_rows : Int := level_rows.length
  (pyRange 0 (total_rows - chunk_size + 1)).foldl
    (chunk_step level_rows chunk_size conv_map) max_counts

/-- One id of the dictionary-building fold of `generate_geobuffer_list`:
for `(level_id, (x, y))` with a positive max count, add the count into
`geo_dict[(x, y)]` (initialised to 0 on first touch). -/
def geo_step (max_counts : Dict Int Nat) (geo_dict : Dict (Int × Int) Nat)
    (p : Int × (Int × Int)) : Dict (Int × Int) Nat :=
  let count := (dfind max_counts p.1).getD 0
  if count > 0 then
    dset geo_dict p.2 ((dfind geo_dict p.2).getD 0 + count)
  else geo_dict

/-- The `for level_id, (x, y) in conv_map.items():` loop of
`generate_geobuffer_list`, producing `geo_dict`. -/
def geo_dict_of (conv_map : Dict Int (Int × Int)) (max_counts : Dict Int Nat) :
    Dict (Int × Int) Nat :=
  conv_map.foldl (geo_step max_counts) []

/-- Insert one entry into an already sorted run, after every element with a
lower-or-equal first component and before every strictly greater one. -/
def sort_insert (x : Int × Int × Nat) :
    List (Int × Int × Nat) → List (Int × Int × Nat)
  | [] => [x]
  | y :: ys => if y.1 < x.1 then y :: sort_insert x ys else x :: y :: ys

/-- `geobuffers.sort(key=lambda tup: tup[0])`: Python's `list.sort` is a
stable sort, and any two stable sorts by the same key order coincide, so it
is embedded as the stable insertion sort ascending on the first component
(`sort_insert` places each element before every strictly greater first
component and after all earlier elements with a lower-or-equal one). -/
def sort_by_first (l : List (Int × Int × Nat)) : List (Int × Int × Nat) :=
  l.foldr sort_insert []

/-- `generate_geobuffer_list` from `app.py`: list the `(x, y, z)` triples of
`geo_dict` in insertion order, then sort stably ascending by the first
component (`geobuffers.sort(key=lambda tup: tup[0])`). -/
def generate_geobuffer_list (conv_map : Dict Int (Int × Int))
    (max_counts : Dict Int Nat) : List (Int × Int × Nat) :=
  let geobuffers := (geo_dict_of conv_map max_counts).map
    (fun q => (q.1.1, q.1.2, q.2))
  sort_by_first geobuffers

/-- The hardcoded `PRESET_GEOBUFFER0` constant of `app.py`, verbatim. -/
def PRESET_GEOBUFFER0 : List (Int × Int × Nat) := [
  (0,0,100),(1,0,20),(2,0,15),(3,0,12),(4,0,5),(5,0,10),(6,0,80),(7,0,15),(8,0,10),(9,0,15),
  (10,0,45),(11,0,30),(12,0,90),(13,0,70),(14,0,120),(30,4,10),(44,4,20),(62,4,5),(64,4,10),
  (70,2,10),(71,2,2),(72,2,10),(73,2,15),(77,5,40),(78,5,50),(80,9,60),(81,9,60),
  (82,9,45),(83,9,45),(84,9,20),(85,9,20),(86,9,60),(87,9,40),(88,9,10),(89,9,40),(90,9,40),
  (91,9,40),(92,9,40),(93,9,40),(94,9,40),(95,9,40),(96,9,40),(97,9,40),(98,9,40),
  (99,9,40),(100,9,40),(101,8,650),(103,10,1),(104,10,2),(105,6,1),(107,10,1),
  (108,6,1),(109,6,1),(112,1,60),(114,10,50),(217,6,10),(218,6,3),(233,9,40),(364,10,1)]

/-- The fixed roller-id subset (`ROLLER_IDS` in `app.py`). -/
def ROLLER_IDS : List Int := [41, 42, 43, 44, 579, 580, 587, 588]

/-- Loader for the roller-override configuration (`app.py` lines 179-196).
`rm_data` is `none` when neither JSON file could be opened or parsed; each
loaded entry carries an optional `name` and an optional 2-integer `to`
(a missing or non-list field makes the entry malformed and it is skipped). -/
def load_roller_mappings :
    Option (List (Option String × Option (Int × Int))) → Dict String (Int × Int)
  | none => []
  | some rm_data =>
    rm_data.foldl (fun rm entry =>
      match entry with
      | (some name, some dest) =>
        if name = "" then rm
        else dset rm (String.mk (pyStrip name.toList)) dest
      | _ => rm) []

/-- The category selected by `apply_roller_mapping`:
`roller_mappings.get(selection, roller_mappings.get("Default", (24, 4)))`. -/
def roller_selection (roller_mappings : Dict String (Int × Int))
    (selection : String) : Int × Int :=
  ((dfind roller_mappings selection).orElse
    (fun _ => dfind roller_mappings "Default")).getD (24, 4)

/-- `apply_roller_mapping` from `app.py`: overwrite `conversion_map` at every
roller id with the selected category. -/
def apply_roller_mapping (roller_mappings : Dict String (Int × Int))
    (conversion_map : Dict Int (Int × Int)) (selection : String) :
    Dict Int (Int × Int) :=
  let mapping := roller_selection roller_mappings selection
  ROLLER_IDS.foldl (fun cm id_val => dset cm id_val mapping) conversion_map

/-- The observable outcome of one `run_processing` invocation: which message
box fires, or success carrying the list handed to `write_output`. -/
inductive RunResult : Type
  | missingInput : RunResult
  | missingOutput : RunResult
  | chunkSizeError : RunResult
  | noLevelData : RunResult
  | noMatches : RunResult
  | success : List (Int × Int × Nat) → RunResult
deriving DecidableEq

/-- `run_processing` from `app.py`, with the GUI state passed explicitly:
the two path fields, the lines of the selected input file, the raw chunk-size
string, the `Add GeoBuffer0` checkbox, and the current `conversion_map`. -/
def run_processing (input_filepath output_filepath : String)
    (file_lines : List String) (chunk_size_str : String)
    (add_geobuffer0 : Bool) (conversion_map : Dict Int (Int × Int)) : RunResult :=
  if input_filepath = "" then RunResult.missingInput
  else if output_filepath = "" then RunResult.missingOutput
  else
    match pyInt chunk_size_str with
    | none => RunResult.chunkSizeError
    | some chunk_size =>
      let level_rows := parse_level_file file_lines
      if level_rows = [] then RunResult.noLevelData
      else
        let max_counts := analyze_chunks level_rows chunk_size conversion_map
        let geobuffer_list := generate_geobuffer_list conversion_map max_counts
        let geobuffer_list :=
          if add_geobuffer0 then PRESET_GEOBUFFER0 ++ geobuffer_list
          else geobuffer_list
        if geobuffer_list = [] then RunResult.noMatches
        else RunResult.success geobuffer_list

/-- Spec-side definition (from the claim's words): the number of occurrences
of `id` among the cells of the contiguous block of `W` rows starting at
row `s`. -/
def windowCount (level_rows : List (List Int)) (W : Nat) (s : Nat) (id : Int) : Nat :=
  (((level_rows.drop s).take W).flatten).count id

/-- Spec-side definition (from the claim's words): the maximum of
`windowCount` over every window start position `0` through `L - W`
inclusive; when `L < W` there are zero windows and the value is `0`. -/
def specMaxCount (level_rows : List (List Int)) (W : Nat) (id : Int) : Nat :=
  if level_rows.length < W then 0
  else ((List.range (level_rows.length - W + 1)).map
    (fun s => windowCount level_rows W s id)).foldr max 0

theorem dfind_nil {α β : Type} [DecidableEq α] (a : α) :
    dfind ([] : Dict α β) a = none := rfl

theorem dfind_cons {α β : Type} [DecidableEq α] (k : α) (v : β) (d : Dict α β) (a : α) :
    dfind ((k, v) :: d) a = if k = a then some v else dfind d a := rfl

theorem dfind_dset {α β : Type} [DecidableEq α] (d : Dict α β) (k a : α) (v : β) :
    dfind (dset d k v) a = if k = a then some v else dfind d a := by
  induction d with
  | nil => simp [dset, dfind]
  | cons p rest ih =>
    obtain ⟨k', v'⟩ := p
    by_cases hk : k' = k
    · subst hk
      by_cases ha : k' = a <;> simp [dset, dfind, ha]
    · by_cases ha : k' = a
      · subst ha
        have : ¬ k = k' := fun h => hk h.symm
        simp [dset, dfind, hk, this]
      · simp [dset, dfind, hk, ha, ih]

theorem dfind_isSome_iff {α β : Type} [DecidableEq α] (d : Dict α β) (a : α) :
    (dfind d a).isSome ↔ a ∈ d.map Prod.fst := by
  induction d with
  | nil => simp [dfind]
  | cons p rest ih =>
    obtain ⟨k, v⟩ := p
    by_cases h : k = a <;> simp [dfind, h, ih]
    exact fun hc => (h hc.symm).elim

theorem keys_dset {α β : Type} [DecidableEq α] (d : Dict α β) (k : α) (v : β) :
    (dset d k v).map Prod.fst =
      if (dfind d k).isSome then d.map Prod.fst else d.map Prod.fst ++ [k] := by
  induction d with
  | nil => simp [dset, dfind]
  | cons p rest ih =>
    obtain ⟨k', v'⟩ := p
    by_cases h : k' = k
    · simp [dset, dfind, h]
    · simp [dset, dfind, h, ih]
      split <;> simp

theorem nodup_keys_dset {α β : Type} [DecidableEq α] (d : Dict α β) (k : α) (v : β)
    (h : (d.map Prod.fst).Nodup) : ((dset d k v).map Prod.fst).Nodup := by
  rw [keys_dset]
  split
  · exact h
  · next hfind =>
    rw [List.nodup_append]
    refine ⟨h, List.nodup_singleton k, ?_⟩
    intro a ha hb
    simp at hb
    subst hb
    exact hfind ((dfind_isSome_iff d a).mpr ha)

theorem mem_dset {α β : Type} [DecidableEq α] {d : Dict α β} {k : α} {v : β}
    {q : α × β} (h : q ∈ dset d k v) : q.2 = v ∨ q ∈ d := by
  induction d with
  | nil => simp [dset] at h; simp [h]
  | cons p rest ih =>
    obtain ⟨k', v'⟩ := p
    by_cases hk : k' = k
    · simp [dset, hk] at h
      rcases h with h | h
      · simp [h]
      · exact Or.inr (List.mem_cons_of_mem _ h)
    · simp [dset, hk] at h
      rcases h with h | h
      · exact Or.inr (by simp [h])
      · rcases ih h with h' | h'
        · exact Or.inl h'
        · exact Or.inr (List.mem_cons_of_mem _ h')

theorem dfind_eq_of_mem_nodup {α β : Type} [DecidableEq α] {d : Dict α β} {k : α} {v : β}
    (hnd : (d.map Prod.fst).Nodup) (h : (k, v) ∈ d) : dfind d k = some v := by
  induction d with
  | nil => simp at h
  | cons p rest ih =>
    obtain ⟨k', v'⟩ := p
    simp at h
    rcases h with ⟨h1, h2⟩ | h
    · simp [dfind, h1, h2]
    · have hk : k' ≠ k := by
        intro hc
        subst hc
        exact (List.nodup_cons.mp hnd).1 (by simpa using List.mem_map_of_mem Prod.fst h)
      simp [dfind, hk]
      exact ih (List.nodup_cons.mp hnd).2 h

theorem dset_eq_of_dfind {α β : Type} [DecidableEq α] {d : Dict α β} {k : α} {v : β}
    (h : dfind d k = some v) : dset d k v = d := by
  induction d with
  | nil => simp [dfind] at h
  | cons p rest ih =>
    obtain ⟨k', v'⟩ := p
    by_cases hk : k' = k
    · subst hk
      simp [dfind] at h
      simp [dset, h]
    · simp [dfind, hk] at h
      simp [dset, hk, ih h]

theorem dfind_foldl_dset_not_mem {α β : Type} [DecidableEq α] (v : β) :
    ∀ (ids : List α) (d : Dict α β) (a : α), a ∉ ids →
      dfind (ids.foldl (fun c i => dset c i v) d) a = dfind d a
  | [], _, _, _ => rfl
  | i :: rest, d, a, ha => by
    have h1 : a ∉ rest := fun h => ha (List.mem_cons_of_mem _ h)
    have h2 : i ≠ a := fun h => ha (h ▸ List.mem_cons_self i rest)
    rw [List.foldl_cons, dfind_foldl_dset_not_mem v rest _ a h1, dfind_dset,
      if_neg h2]

theorem dfind_foldl_dset_mem {α β : Type} [DecidableEq α] (v : β) :
    ∀ (ids : List α) (d : Dict α β) (a : α), a ∈ ids →
      dfind (ids.foldl (fun c i => dset c i v) d) a = some v
  | [], _, _, ha => absurd ha (List.not_mem_nil _)
  | i :: rest, d, a, ha => by
    by_cases hr : a ∈ rest
    · exact dfind_foldl_dset_mem v rest _ a hr
    · have hia : i = a := by
        rcases List.mem_cons.mp ha with h | h
        · exact h.symm
        · exact absurd h hr
      rw [List.foldl_cons, dfind_foldl_dset_not_mem v rest _ a hr, dfind_dset,
        if_pos hia]

theorem foldl_dset_id {α β : Type} [DecidableEq α] (v : β) :
    ∀ (ids : List α) (d : Dict α β), (∀ i ∈ ids, dfind d i = some v) →
      ids.foldl (fun c i => dset c i v) d = d
  | [], _, _ => rfl
  | i :: rest, d, h => by
    rw [List.foldl_cons, dset_eq_of_dfind (h i (List.mem_cons_self i rest))]
    exact foldl_dset_id v rest d (fun j hj => h j (List.mem_cons_of_mem _ hj))


theorem preset_ne_nil : PRESET_GEOBUFFER0 ≠ [] := by
  intro h
  cases h

theorem apply_roller_mapping_unfold (rm : Dict String (Int × Int))
    (cm : Dict Int (Int × Int)) (sel : String) :
    apply_roller_mapping rm cm sel
      = ROLLER_IDS.foldl (fun c i => dset c i (roller_selection rm sel)) cm := rfl

/-- Claim C8: on the grid `[[1,1,1,1,1],[2,2,2,2,2],[1,1,1,1,1]]` with mapping
`{1:(0,0), 2:(1,0)}` and window size 2, the analyzer produces max counts
`{1:5, 2:5}` and the aggregator produces `[(0,0,5), (1,0,5)]`. -/
theorem end_to_end_example :
    analyze_chunks [[1,1,1,1,1],[2,2,2,2,2],[1,1,1,1,1]] 2 [(1,(0,0)),(2,(1,0))]
      = [(1,5),(2,5)]
    ∧ generate_geobuffer_list [(1,(0,0)),(2,(1,0))]
        (analyze_chunks [[1,1,1,1,1],[2,2,2,2,2],[1,1,1,1,1]] 2 [(1,(0,0)),(2,(1,0))])
      = [(0,0,5),(1,0,5)] := by
  refine ⟨?_, ?_⟩ <;> decide

/-- Claim C9: applying a roller override sets all eight roller ids to the
single selected category simultaneously, is idempotent, and leaves the
mapping entry of every non-roller id unchanged. -/
theorem apply_roller_mapping_effect (rm : Dict String (Int × Int))
    (cm : Dict Int (Int × Int)) (sel : String) :
    (∀ i ∈ ROLLER_IDS,
        dfind (apply_roller_mapping rm cm sel) i = some (roller_selection rm sel))
    ∧ apply_roller_mapping rm (apply_roller_mapping rm cm sel) sel
        = apply_roller_mapping rm cm sel
    ∧ ∀ i : Int, i ∉ ROLLER_IDS →
        dfind (apply_roller_mapping rm cm sel) i = dfind cm i := by
  refine ⟨?_, ?_, ?_⟩
  · intro i hi
    rw [apply_roller_mapping_unfold]
    exact dfind_foldl_dset_mem (roller_selection rm sel) ROLLER_IDS cm i hi
  · rw [apply_roller_mapping_unfold, apply_roller_mapping_unfold]
    exact foldl_dset_id (roller_selection rm sel) ROLLER_IDS _
      (fun i hi => dfind_foldl_dset_mem (roller_selection rm sel) ROLLER_IDS cm i hi)
  · intro i hi
    rw [apply_roller_mapping_unfold]
    exact dfind_foldl_dset_not_mem (roller_selection rm sel) ROLLER_IDS cm i hi

/-- Witness for C9 at a concrete override table, conversion map and name. -/
theorem apply_roller_mapping_effect_witness :
    dfind (apply_roller_mapping [("A",(1,2))] [(41,(0,0)),(7,(3,3))] "A") 41
      = some (roller_selection [("A",(1,2))] "A")
    ∧ dfind (apply_roller_mapping [("A",(1,2))] [(41,(0,0)),(7,(3,3))] "A") 7
      = dfind [(41,(0,0)),(7,(3,3))] 7 := by
  refine ⟨?_, ?_⟩
  · exact (apply_roller_mapping_effect [("A",(1,2))] [(41,(0,0)),(7,(3,3))] "A").1
      41 (by decide)
  · exact (apply_roller_mapping_effect [("A",(1,2))] [(41,(0,0)),(7,(3,3))] "A").2.2
      7 (by decide)

/-- Counterexample to claim C3: with the override configuration absent the
loaded override table is empty, yet applying the override does NOT leave the
roller ids with their primary-group category — id 41, unmapped by the (empty)
primary configuration, receives a fresh entry with the hardcoded fallback
category `(24, 4)`. -/
theorem roller_fallback_counterexample :
    load_roller_mappings none = []
    ∧ dfind ([] : Dict Int (Int × Int)) 41 = none
    ∧ dfind (apply_roller_mapping (load_roller_mappings none) [] "Default") 41
        = some (24, 4) :=
  ⟨rfl, rfl, rfl⟩

/-- Claim C3 as amended: when the roller-override configuration is absent or
malformed (the loaded override table is empty), applying a roller override
assigns all eight roller ids the hardcoded fallback category `(24, 4)` —
creating entries even for roller ids with no primary assignment — while every
non-roller id keeps its primary-group category. -/
theorem roller_fallback_amended (rm : Dict String (Int × Int)) (hrm : rm = [])
    (cm : Dict Int (Int × Int)) (sel : String) :
    (∀ i ∈ ROLLER_IDS, dfind (apply_roller_mapping rm cm sel) i = some (24, 4))
    ∧ ∀ i : Int, i ∉ ROLLER_IDS →
        dfind (apply_roller_mapping rm cm sel) i = dfind cm i := by
  subst hrm
  have hsel : roller_selection [] sel = (24, 4) := rfl
  refine ⟨?_, ?_⟩
  · intro i hi
    rw [apply_roller_mapping_unfold, ← hsel]
    exact dfind_foldl_dset_mem (roller_selection [] sel) ROLLER_IDS cm i hi
  · intro i hi
    rw [apply_roller_mapping_unfold]
    exact dfind_foldl_dset_not_mem (roller_selection [] sel) ROLLER_IDS cm i hi

/-- Witness for the amended C3 at a concrete state. -/
theorem roller_fallback_amended_witness :
    dfind (apply_roller_mapping [] [(41,(0,0))] "X") 41 = some (24, 4)
    ∧ dfind (apply_roller_mapping [] [(41,(0,0))] "X") 7 = dfind [(41,(0,0))] 7 := by
  refine ⟨?_, ?_⟩
  · exact (roller_fallback_amended [] rfl [(41,(0,0))] "X").1 41 (by decide)
  · exact (roller_fallback_amended [] rfl [(41,(0,0))] "X").2 7 (by decide)

/-- Counterexample to claim C4: the hardcoded preset list has 59 entries, not
60.  On the spec's own example (computed result `[(5,0,3)]`, preset enabled)
the written list is the 59 preset entries followed by `(5,0,3)` — 60 lines in
all, not the 61 that a 60-entry preset would give. -/
theorem preset_length_counterexample :
    PRESET_GEOBUFFER0.length = 59
    ∧ run_processing "in.txt" "out.txt" ["7,7,7,0,0"] "1" true [(7,(5,0))]
        = RunResult.success (PRESET_GEOBUFFER0 ++ [(5,0,3)])
    ∧ (PRESET_GEOBUFFER0 ++ [(5,0,3)]).length ≠ 61 := by
  refine ⟨?_, ?_, ?_⟩ <;> decide

/-- Claim C4 as amended: when preset injection is enabled, the final output
equals the fixed, hardcoded sequence of exactly 59 literal GeoBufferEntry
triples followed by the Aggregator's computed entries, with the preset
entries unchanged, not re-sorted, and never deduplicated or merged against
the computed entries. -/
theorem preset_prepend_amended (input output : String) (lines : List String)
    (s : String) (m : Dict Int (Int × Int)) (w : Int)
    (hin : input ≠ "") (hout : output ≠ "") (hw : pyInt s = some w)
    (hrows : parse_level_file lines ≠ []) :
    PRESET_GEOBUFFER0.length = 59
    ∧ run_processing input output lines s true m
        = RunResult.success (PRESET_GEOBUFFER0 ++
            generate_geobuffer_list m
              (analyze_chunks (parse_level_file lines) w m)) := by
  refine ⟨rfl, ?_⟩
  unfold run_processing
  rw [if_neg hin, if_neg hout, hw]
  simp [hrows, preset_ne_nil, List.append_eq_nil]

/-- Witness for the amended C4 at a concrete run. -/
theorem preset_prepend_amended_witness :
    PRESET_GEOBUFFER0.length = 59
    ∧ run_processing "in.txt" "out.txt" ["7,7,7,0,0"] "1" true [(7,(5,0))]
        = RunResult.success (PRESET_GEOBUFFER0 ++
            generate_geobuffer_list [(7,(5,0))]
              (analyze_chunks (parse_level_file ["7,7,7,0,0"]) 1 [(7,(5,0))])) :=
  preset_prepend_amended "in.txt" "out.txt" ["7,7,7,0,0"] "1" [(7,(5,0))] 1
    (by decide) (by decide) (by decide) (by decide)

/-- Counterexample to claim C2: the window-size string `"0"` parses to the
non-positive integer 0, yet the pipeline does not fail with a configuration
error — it runs the analysis (zero windows, empty computed result) and ends
in the "no matching item IDs" outcome. -/
theorem chunk_size_zero_accepted :
    pyInt "0" = some 0
    ∧ run_processing "in.txt" "out.txt" ["1,1,1,1,1"] "0" false [(1,(0,0))]
        = RunResult.noMatches
    ∧ run_processing "in.txt" "out.txt" ["1,1,1,1,1"] "0" false [(1,(0,0))]
        ≠ RunResult.chunkSizeError := by
  refine ⟨?_, ?_, ?_⟩ <;> decide

/-- Claim C2 as amended: the pipeline fails with the configuration error
before analysis exactly when the window-size string does not parse as an
integer; every parsed integer window size — including zero and negative
values — is accepted and analysis proceeds. -/
theorem chunk_size_validation_amended (input output : String)
    (lines : List String) (s : String) (add : Bool) (m : Dict Int (Int × Int))
    (hin : input ≠ "") (hout : output ≠ "") :
    run_processing input output lines s add m = RunResult.chunkSizeError
      ↔ pyInt s = none := by
  unfold run_processing
  rw [if_neg hin, if_neg hout]
  cases hp : pyInt s with
  | none => simp
  | some w =>
    simp only [Option.some.injEq, reduceCtorEq, iff_false]
    by_cases h3 : parse_level_file lines = []
    · simp [h3]
    · simp only [h3, if_false, ite_false]
      split <;> split <;> simp

/-- Witness for the amended C2 at a concrete run. -/
theorem chunk_size_validation_amended_witness :
    run_processing "in.txt" "out.txt" [] "abc" false [] = RunResult.chunkSizeError
      ↔ pyInt "abc" = none :=
  chunk_size_validation_amended "in.txt" "out.txt" [] "abc" false []
    (by decide) (by decide)

/-- Claim C10: with the preset enabled the "no matching item IDs" outcome is
unreachable, because the emptiness check runs after preset injection; an
empty computed result with the preset enabled still succeeds, writing exactly
the preset entries. -/
theorem preset_suppresses_empty (input output : String) (lines : List String)
    (s : String) (m : Dict Int (Int × Int)) :
    run_processing input output lines s true m ≠ RunResult.noMatches
    ∧ ∀ w : Int, pyInt s = some w → input ≠ "" → output ≠ "" →
        parse_level_file lines ≠ [] →
        generate_geobuffer_list m (analyze_chunks (parse_level_file lines) w m)
          = [] →
        run_processing input output lines s true m
          = RunResult.success PRESET_GEOBUFFER0 := by
  constructor
  · unfold run_processing
    by_cases h1 : input = ""
    · simp [h1]
    by_cases h2 : output = ""
    · simp [h1, h2]
    cases hp : pyInt s with
    | none => simp [h1, h2]
    | some w =>
      by_cases h3 : parse_level_file lines = []
      · simp [h1, h2, h3]
      · simp [h1, h2, h3, preset_ne_nil, List.append_eq_nil]
  · intro w hw hin hout hrows hempty
    unfold run_processing
    rw [if_neg hin, if_neg hout, hw]
    simp [hrows, hempty, preset_ne_nil, List.append_eq_nil]

/-- Witness for C10: grid `[[9,9,9,9,9]]` contains no mapped id, so the
computed list is empty, yet the run succeeds with exactly the preset. -/
theorem preset_suppresses_empty_witness :
    run_processing "in.txt" "out.txt" ["9,9,9,9,9"] "1" true [(7,(5,0))]
      = RunResult.success PRESET_GEOBUFFER0 :=
  (preset_suppresses_empty "in.txt" "out.txt" ["9,9,9,9,9"] "1" [(7,(5,0))]).2
    1 (by decide) (by decide) (by decide) (by decide) (by decide)

theorem parse_int_list_length : ∀ (ps : List (List Char)) (r : List Int),
    parse_int_list ps = some r → r.length = ps.length
  | [], r, h => by
    simp only [parse_int_list, Option.some.injEq] at h
    simp [← h]
  | p :: rest, r, h => by
    cases hp : pyIntChars p with
    | none => simp [parse_int_list, hp] at h
    | some v =>
      cases hr : parse_int_list rest with
      | none => simp [parse_int_list, hp, hr] at h
      | some vs =>
        simp only [parse_int_list, hp, hr, Option.some.injEq] at h
        subst h
        simp [parse_int_list_length rest vs hr]

theorem parse_line_some (ds : Bool) (line : String) (ds2 : Bool) (row : List Int)
    (h : parse_line ds line = (ds2, some row)) :
    (line_tokens (pyStrip line.toList)).length = 5
      ∧ parse_int_list (line_tokens (pyStrip line.toList)) = some row := by
  simp only [parse_line] at h
  split at h
  · simp at h
  · split at h
    · simp at h
    · split at h
      · split at h
        · simp at h
        · split at h
          · next r heq =>
            simp only [Prod.mk.injEq, Option.some.injEq] at h
            rw [← h.2]
            refine ⟨?_, heq⟩
            next hlen _ => omega
          · simp at h
      · simp at h

theorem parse_level_file_loop_rows : ∀ (ds : Bool) (lines : List String)
    (row : List Int), row ∈ parse_level_file_loop ds lines →
    ∃ line ∈ lines, (line_tokens (pyStrip line.toList)).length = 5
      ∧ parse_int_list (line_tokens (pyStrip line.toList)) = some row
  | _, [], row, h => absurd h (List.not_mem_nil _)
  | ds, line :: rest, row, h => by
    rw [parse_level_file_loop] at h
    cases hp : parse_line ds line with
    | mk ds2 orow =>
      rw [hp] at h
      cases orow with
      | none =>
        obtain ⟨l, hl, hspec⟩ := parse_level_file_loop_rows ds2 rest row h
        exact ⟨l, List.mem_cons_of_mem _ hl, hspec⟩
      | some r =>
        rcases List.mem_cons.mp h with hr | hr
        · subst hr
          exact ⟨line, List.mem_cons_self _ _, parse_line_some ds line ds2 row hp⟩
        · obtain ⟨l, hl, hspec⟩ := parse_level_file_loop_rows ds2 rest row hr
          exact ⟨l, List.mem_cons_of_mem _ hl, hspec⟩

/-- Claim C7: every row of the LevelGrid has exactly 5 elements and is the
complete successful integer parse of the token list of some input line: the
parser is total, silently discards malformed lines whole, and never emits a
partial row. -/
theorem parse_rows_invariant (lines : List String) (row : List Int)
    (h : row ∈ parse_level_file lines) :
    row.length = 5 ∧ ∃ line ∈ lines,
      (line_tokens (pyStrip line.toList)).length = 5
        ∧ parse_int_list (line_tokens (pyStrip line.toList)) = some row := by
  obtain ⟨line, hl, hlen, hparse⟩ := parse_level_file_loop_rows false lines row h
  refine ⟨?_, line, hl, hlen, hparse⟩
  rw [parse_int_list_length _ _ hparse, hlen]

/-- Witness for C7 on a one-line file. -/
theorem parse_rows_invariant_witness :
    ([1,2,3,4,5] : List Int).length = 5 ∧ ∃ line ∈ ["1,2,3,4,5"],
      (line_tokens (pyStrip line.toList)).length = 5
        ∧ parse_int_list (line_tokens (pyStrip line.toList)) = some [1,2,3,4,5] :=
  parse_rows_invariant ["1,2,3,4,5"] [1,2,3,4,5] (by decide)

theorem geo_fold_lookup (mc : Dict Int Nat) (c : Int × Int) :
    ∀ (l : List (Int × (Int × Int))) (gd : Dict (Int × Int) Nat),
      (dfind (l.foldl (geo_step mc) gd) c).getD 0
        = (dfind gd c).getD 0
          + ((l.filter fun p =>
                decide (p.2 = c) && decide (0 < (dfind mc p.1).getD 0)).map
              (fun p => (dfind mc p.1).getD 0)).sum
  | [], gd => by simp
  | p :: rest, gd => by
    rw [List.foldl_cons, geo_fold_lookup mc c rest (geo_step mc gd p),
      List.filter_cons]
    by_cases hc : p.2 = c
    · by_cases hcnt : 0 < (dfind mc p.1).getD 0
      · rw [if_pos (by simp [hc, hcnt])]
        simp only [List.map_cons, List.sum_cons]
        have hstep : (dfind (geo_step mc gd p) c).getD 0
            = (dfind gd c).getD 0 + (dfind mc p.1).getD 0 := by
          simp only [geo_step]
          rw [if_pos hcnt, hc, dfind_dset, if_pos rfl]
          simp
        rw [hstep]
        omega
      · rw [if_neg (by simp [hcnt])]
        simp only [geo_step]
        rw [if_neg hcnt]
    · by_cases hcnt : 0 < (dfind mc p.1).getD 0
      · rw [if_neg (by simp [hc])]
        simp only [geo_step]
        rw [if_pos hcnt, dfind_dset, if_neg hc]
      · rw [if_neg (by simp [hc])]
        simp only [geo_step]
        rw [if_neg hcnt]

theorem geo_fold_pos (mc : Dict Int Nat) :
    ∀ (l : List (Int × (Int × Int))) (gd : Dict (Int × Int) Nat),
      (∀ q ∈ gd, 0 < q.2) → ∀ q ∈ l.foldl (geo_step mc) gd, 0 < q.2
  | [], _, hgd => hgd
  | p :: rest, gd, hgd => by
    rw [List.foldl_cons]
    refine geo_fold_pos mc rest _ ?_
    intro q hq
    simp only [geo_step, gt_iff_lt] at hq
    split at hq
    · next hcnt =>
      rcases mem_dset hq with h | h
      · omega
      · exact hgd q h
    · exact hgd q hq

theorem sort_insert_perm (x : Int × Int × Nat) :
    ∀ l : List (Int × Int × Nat), (sort_insert x l).Perm (x :: l)
  | [] => List.Perm.refl _
  | y :: ys => by
    rw [sort_insert]
    split
    · exact ((sort_insert_perm x ys).cons y).trans (List.Perm.swap x y ys)
    · exact List.Perm.refl _

theorem sort_by_first_perm :
    ∀ l : List (Int × Int × Nat), (sort_by_first l).Perm l
  | [] => List.Perm.refl _
  | a :: rest =>
    (sort_insert_perm a (sort_by_first rest)).trans
      ((sort_by_first_perm rest).cons a)

theorem geo_dict_of_unfold (m : Dict Int (Int × Int)) (mc : Dict Int Nat) :
    geo_dict_of m mc = m.foldl (geo_step mc) [] := rfl

/-- Claim C5: per-category totals of the Aggregator are order-independent:
each category's total is the sum of the max counts of the ids mapped to it
(those with positive count), the same for any permutation of the fold order,
and zero-count ids contribute nothing — every emitted entry has a positive
count. -/
theorem aggregation_totals (m m' : Dict Int (Int × Int)) (mc : Dict Int Nat)
    (c : Int × Int) (hperm : m.Perm m') :
    (dfind (geo_dict_of m mc) c).getD 0
      = ((m.filter fun p =>
            decide (p.2 = c) && decide (0 < (dfind mc p.1).getD 0)).map
          (fun p => (dfind mc p.1).getD 0)).sum
    ∧ (dfind (geo_dict_of m' mc) c).getD 0 = (dfind (geo_dict_of m mc) c).getD 0
    ∧ ∀ e ∈ generate_geobuffer_list m mc, 0 < e.2.2 := by
  have h1 := geo_fold_lookup mc c m []
  have h2 := geo_fold_lookup mc c m' []
  rw [← geo_dict_of_unfold] at h1 h2
  simp only [dfind_nil, Option.getD_none, Nat.zero_add] at h1 h2
  refine ⟨h1, ?_, ?_⟩
  · rw [h1, h2]
    exact ((hperm.filter _).map _).sum_eq.symm
  · intro e he
    have he2 : e ∈ (geo_dict_of m mc).map (fun q => (q.1.1, q.1.2, q.2)) :=
      (sort_by_first_perm _).mem_iff.mp he
    obtain ⟨q, hq, rfl⟩ := List.mem_map.mp he2
    exact geo_fold_pos mc m [] (by simp) q hq

/-- Witness for C5 with two ids sharing one category, folded in both orders. -/
theorem aggregation_totals_witness :
    (dfind (geo_dict_of [(1,(0,0)),(2,(0,0))] [(1,3),(2,4)]) (0,0)).getD 0
      = (([(1,(0,0)),(2,(0,0))].filter fun p =>
            decide (p.2 = ((0:Int),(0:Int)))
              && decide (0 < (dfind [(1,3),(2,4)] p.1).getD 0)).map
          (fun p => (dfind [(1,3),(2,4)] p.1).getD 0)).sum
    ∧ (dfind (geo_dict_of [(2,(0,0)),(1,(0,0))] [(1,3),(2,4)]) (0,0)).getD 0
        = (dfind (geo_dict_of [(1,(0,0)),(2,(0,0))] [(1,3),(2,4)]) (0,0)).getD 0
    ∧ ∀ e ∈ generate_geobuffer_list [(1,(0,0)),(2,(0,0))] [(1,3),(2,4)],
        0 < e.2.2 :=
  aggregation_totals [(1,(0,0)),(2,(0,0))] [(2,(0,0)),(1,(0,0))]
    [(1,3),(2,4)] (0,0) (List.Perm.swap _ _ _)

theorem geo_fold_nodup (mc : Dict Int Nat) :
    ∀ (l : List (Int × (Int × Int))) (gd : Dict (Int × Int) Nat),
      (gd.map Prod.fst).Nodup →
      ((l.foldl (geo_step mc) gd).map Prod.fst).Nodup
  | [], _, h => h
  | p :: rest, gd, h => by
    rw [List.foldl_cons]
    refine geo_fold_nodup mc rest _ ?_
    simp only [geo_step]
    split
    · exact nodup_keys_dset _ _ _ h
    · exact h

theorem sort_insert_sorted (x : Int × Int × Nat) :
    ∀ l : List (Int × Int × Nat), l.Pairwise (fun a b => a.1 ≤ b.1) →
      (sort_insert x l).Pairwise (fun a b => a.1 ≤ b.1)
  | [], _ => List.pairwise_singleton _ _
  | y :: ys, h => by
    rw [sort_insert]
    obtain ⟨hy, hys⟩ := List.pairwise_cons.mp h
    split
    · next hlt =>
      refine List.pairwise_cons.mpr ⟨?_, sort_insert_sorted x ys hys⟩
      intro z hz
      rcases List.mem_cons.mp ((sort_insert_perm x ys).mem_iff.mp hz) with rfl | hz'
      · exact le_of_lt hlt
      · exact hy z hz'
    · next hnlt =>
      refine List.pairwise_cons.mpr ⟨?_, h⟩
      intro z hz
      rcases List.mem_cons.mp hz with rfl | hz'
      · exact le_of_not_lt hnlt
      · exact le_trans (le_of_not_lt hnlt) (hy z hz')

theorem sort_by_first_sorted :
    ∀ l : List (Int × Int × Nat),
      (sort_by_first l).Pairwise (fun a b => a.1 ≤ b.1)
  | [] => List.Pairwise.nil
  | a :: rest => sort_insert_sorted a (sort_by_first rest)
      (sort_by_first_sorted rest)

theorem filter_sort_insert (k : Int) (x : Int × Int × Nat) :
    ∀ l : List (Int × Int × Nat),
      (sort_insert x l).filter (fun t => decide (t.1 = k))
        = if x.1 = k then x :: l.filter (fun t => decide (t.1 = k))
          else l.filter (fun t => decide (t.1 = k))
  | [] => by by_cases hx : x.1 = k <;> simp [sort_insert, hx]
  | y :: ys => by
    rw [sort_insert]
    split
    · next hlt =>
      by_cases hx : x.1 = k
      · have hy : ¬ y.1 = k := by rw [hx] at hlt; omega
        simp [List.filter_cons, hy, hx, filter_sort_insert k x ys]
      · simp [List.filter_cons, hx, filter_sort_insert k x ys]
    · next hnlt =>
      by_cases hx : x.1 = k <;> simp [List.filter_cons, hx]

theorem filter_sort_by_first (k : Int) :
    ∀ l : List (Int × Int × Nat),
      (sort_by_first l).filter (fun t => decide (t.1 = k))
        = l.filter (fun t => decide (t.1 = k))
  | [] => rfl
  | a :: rest => by
    have hins : sort_by_first (a :: rest) = sort_insert a (sort_by_first rest) :=
      rfl
    rw [hins, filter_sort_insert k a (sort_by_first rest), List.filter_cons]
    by_cases ha : a.1 = k <;> simp [ha, filter_sort_by_first k rest]

theorem generate_geobuffer_list_unfold (m : Dict Int (Int × Int))
    (mc : Dict Int Nat) :
    generate_geobuffer_list m mc
      = sort_by_first ((geo_dict_of m mc).map (fun q => (q.1.1, q.1.2, q.2))) :=
  rfl

/-- Claim C6: the Aggregator's output is a permutation of the per-category
entries of `geo_dict` (one entry per distinct category key, carrying its
summed total), sorted ascending by the category-x component only, and stably:
for every x-value the entries with that x keep exactly the relative order in
which their categories were first produced by the fold. -/
theorem aggregation_output_shape (m : Dict Int (Int × Int)) (mc : Dict Int Nat) :
    (generate_geobuffer_list m mc).Perm
        ((geo_dict_of m mc).map (fun q => (q.1.1, q.1.2, q.2)))
    ∧ ((generate_geobuffer_list m mc).map (fun t => (t.1, t.2.1))).Nodup
    ∧ (generate_geobuffer_list m mc).Pairwise (fun a b => a.1 ≤ b.1)
    ∧ (∀ t ∈ generate_geobuffer_list m mc,
        dfind (geo_dict_of m mc) (t.1, t.2.1) = some t.2.2)
    ∧ ∀ k : Int,
        (generate_geobuffer_list m mc).filter (fun t => decide (t.1 = k))
          = ((geo_dict_of m mc).map (fun q => (q.1.1, q.1.2, q.2))).filter
              (fun t => decide (t.1 = k)) := by
  have hperm : (generate_geobuffer_list m mc).Perm
      ((geo_dict_of m mc).map (fun q => (q.1.1, q.1.2, q.2))) := by
    rw [generate_geobuffer_list_unfold]
    exact sort_by_first_perm _
  have hnd : ((geo_dict_of m mc).map Prod.fst).Nodup := by
    rw [geo_dict_of_unfold]
    exact geo_fold_nodup mc m [] (by simp)
  refine ⟨hperm, ?_, ?_, ?_, ?_⟩
  · refine (List.Perm.nodup_iff (hperm.map _)).mpr ?_
    have hmapeq :
        ((geo_dict_of m mc).map (fun q => (q.1.1, q.1.2, q.2))).map
            (fun t => (t.1, t.2.1))
          = (geo_dict_of m mc).map Prod.fst := by
      rw [List.map_map]
      exact List.map_congr_left (fun q _ => rfl)
    rw [hmapeq]
    exact hnd
  · rw [generate_geobuffer_list_unfold]
    exact sort_by_first_sorted _
  · intro t ht
    have ht2 := hperm.mem_iff.mp ht
    obtain ⟨q, hq, heq⟩ := List.mem_map.mp ht2
    subst heq
    exact dfind_eq_of_mem_nodup hnd hq
  · intro k
    rw [generate_geobuffer_list_unfold]
    exact filter_sort_by_first k _

/-- Witness for C6 at a concrete mapping and count table. -/
theorem aggregation_output_shape_witness :
    dfind (geo_dict_of [(1,(0,0))] [(1,2)]) ((0:Int),(0:Int)) = some 2 := by
  have h := (aggregation_output_shape [(1,(0,0))] [(1,2)]).2.2.2.1
      ((0:Int),(0:Int),(2:Nat)) (by decide)
  exact h

theorem dfind_map_zero (m : Dict Int (Int × Int)) (a : Int) :
    dfind (m.map (fun p => (p.1, (0 : Nat)))) a
      = (dfind m a).map (fun _ => (0 : Nat)) := by
  induction m with
  | nil => rfl
  | cons p rest ih =>
    obtain ⟨k, v⟩ := p
    by_cases h : k = a <;> simp [dfind, h, ih]

theorem freq_fold_lookup (m : Dict Int (Int × Int)) :
    ∀ (items : List Int) (freq : Dict Int Nat) (a : Int),
      (dfind (items.foldl (freq_step m) freq) a).getD 0
        = (dfind freq a).getD 0
          + (if (dfind m a).isSome then items.count a else 0)
  | [], freq, a => by simp
  | i :: rest, freq, a => by
    rw [List.foldl_cons, freq_fold_lookup m rest (freq_step m freq i) a]
    by_cases hm : (dfind m i).isSome
    · by_cases hia : i = a
      · subst hia
        simp only [freq_step, if_pos hm, dfind_dset, if_pos rfl, hm,
          Option.getD_some, if_pos, List.count_cons_self]
        omega
      · simp only [freq_step, if_pos hm, dfind_dset, if_neg hia]
        rw [List.count_cons]
        simp [hia]
      -- note: `count a (i :: rest)` drops `i` since `i ≠ a`
    · simp only [freq_step, if_neg hm]
      by_cases hia : i = a
      · subst hia
        simp [hm]
      · rw [List.count_cons]
        simp [hia]

theorem freq_fold_keys (m : Dict Int (Int × Int)) :
    ∀ (items : List Int) (freq : Dict Int Nat),
      (∀ k ∈ freq.map Prod.fst, (dfind m k).isSome) →
      ∀ k ∈ (items.foldl (freq_step m) freq).map Prod.fst, (dfind m k).isSome
  | [], _, h => h
  | i :: rest, freq, h => by
    rw [List.foldl_cons]
    refine freq_fold_keys m rest _ ?_
    intro k hk
    simp only [freq_step] at hk
    split at hk
    · next hm =>
      rw [keys_dset] at hk
      split at hk
      · exact h k hk
      · rcases List.mem_append.mp hk with hk2 | hk2
        · exact h k hk2
        · simp only [List.mem_singleton] at hk2
          subst hk2
          exact hm
    · exact h k hk

theorem freq_fold_nodup (m : Dict Int (Int × Int)) :
    ∀ (items : List Int) (freq : Dict Int Nat),
      (freq.map Prod.fst).Nodup →
      ((items.foldl (freq_step m) freq).map Prod.fst).Nodup
  | [], _, h => h
  | i :: rest, freq, h => by
    rw [List.foldl_cons]
    refine freq_fold_nodup m rest _ ?_
    simp only [freq_step]
    split
    · exact nodup_keys_dset _ _ _ h
    · exact h

theorem window_freq_eq_flatten (window : List (List Int))
    (m : Dict Int (Int × Int)) :
    window_freq window m = (window.flatten).foldl (freq_step m) [] :=
  (List.foldl_flatten _ _ _).symm

theorem max_fold_keys :
    ∀ (ps : List (Int × Nat)) (mc : Dict Int Nat),
      (∀ p ∈ ps, p.1 ∈ mc.map Prod.fst) →
      (ps.foldl max_step mc).map Prod.fst = mc.map Prod.fst
  | [], _, _ => rfl
  | p :: rest, mc, h => by
    rw [List.foldl_cons]
    have hkeys : (max_step mc p).map Prod.fst = mc.map Prod.fst := by
      simp only [max_step]
      split
      · rw [keys_dset,
          if_pos ((dfind_isSome_iff mc p.1).mpr (h p (List.mem_cons_self _ _)))]
      · rfl
    rw [max_fold_keys rest _
      (fun q hq => by rw [hkeys]; exact h q (List.mem_cons_of_mem _ hq)), hkeys]

theorem max_fold_lookup :
    ∀ (ps : List (Int × Nat)) (mc : Dict Int Nat) (a : Int),
      (ps.map Prod.fst).Nodup →
      (dfind (ps.foldl max_step mc) a).getD 0
        = max ((dfind mc a).getD 0) ((dfind ps a).getD 0)
  | [], mc, a, _ => by
    rw [List.foldl_nil, dfind_nil]
    simp
  | (k, v) :: rest, mc, a, hnd => by
    rw [List.map_cons] at hnd
    have hnd2 := List.nodup_cons.mp hnd
    rw [List.foldl_cons, max_fold_lookup rest (max_step mc (k, v)) a hnd2.2]
    by_cases hka : k = a
    · subst hka
      have hrest : dfind rest k = none :=
        Option.not_isSome_iff_eq_none.mp
          (fun hs => hnd2.1 ((dfind_isSome_iff rest k).mp hs))
      have hstep : (dfind (max_step mc (k, v)) k).getD 0
          = max ((dfind mc k).getD 0) v := by
        simp only [max_step]
        split
        · next hgt =>
          rw [dfind_dset, if_pos rfl]
          simp only [Option.getD_some]
          omega
        · next hngt => omega
      rw [hstep, hrest, dfind_cons, if_pos rfl]
      simp only [Option.getD_none, Option.getD_some]
      omega
    · have hstep : dfind (max_step mc (k, v)) a = dfind mc a := by
        simp only [max_step]
        split
        · rw [dfind_dset, if_neg hka]
        · rfl
      rw [hstep, dfind_cons, if_neg hka]

theorem chunk_step_unfold (level_rows : List (List Int)) (chunk : Int)
    (m : Dict Int (Int × Int)) (mc : Dict Int Nat) (s : Int) :
    chunk_step level_rows chunk m mc s
      = (window_freq (pySlice level_rows s (s + chunk)) m).foldl max_step mc :=
  rfl

theorem chunk_step_spec (level_rows : List (List Int)) (chunk : Int)
    (m : Dict Int (Int × Int)) (mc : Dict Int Nat)
    (hk : mc.map Prod.fst = m.map Prod.fst) (s : Int) :
    (chunk_step level_rows chunk m mc s).map Prod.fst = m.map Prod.fst
    ∧ ∀ a : Int, (dfind m a).isSome →
        (dfind (chunk_step level_rows chunk m mc s) a).getD 0
          = max ((dfind mc a).getD 0)
              (((pySlice level_rows s (s + chunk)).flatten).count a) := by
  have hfkeys : ∀ k ∈ (window_freq (pySlice level_rows s (s + chunk)) m).map
      Prod.fst, (dfind m k).isSome := by
    rw [window_freq_eq_flatten]
    exact freq_fold_keys m _ [] (by simp)
  have hfnd : ((window_freq (pySlice level_rows s (s + chunk)) m).map
      Prod.fst).Nodup := by
    rw [window_freq_eq_flatten]
    exact freq_fold_nodup m _ [] (by simp)
  constructor
  · rw [chunk_step_unfold, max_fold_keys _ mc ?_]
    · exact hk
    · intro p hp
      rw [hk]
      exact (dfind_isSome_iff m p.1).mp (hfkeys p.1 (List.mem_map_of_mem _ hp))
  · intro a ha
    rw [chunk_step_unfold, max_fold_lookup _ mc a hfnd, window_freq_eq_flatten,
      freq_fold_lookup m _ [] a, if_pos ha, dfind_nil]
    simp

theorem analyze_loop (level_rows : List (List Int)) (chunk : Int)
    (m : Dict Int (Int × Int)) :
    ∀ (starts : List Int) (mc : Dict Int Nat),
      mc.map Prod.fst = m.map Prod.fst →
      (starts.foldl (chunk_step level_rows chunk m) mc).map Prod.fst
          = m.map Prod.fst
      ∧ ∀ a : Int, (dfind m a).isSome →
          (dfind (starts.foldl (chunk_step level_rows chunk m) mc) a).getD 0
            = (starts.map fun s =>
                ((pySlice level_rows s (s + chunk)).flatten).count a).foldl
                max ((dfind mc a).getD 0)
  | [], _, hk => ⟨hk, fun _ _ => rfl⟩
  | s :: rest, mc, hk => by
    rw [List.foldl_cons]
    have hstep := chunk_step_spec level_rows chunk m mc hk s
    have hrec := analyze_loop level_rows chunk m rest
      (chunk_step level_rows chunk m mc s) hstep.1
    refine ⟨hrec.1, fun a ha => ?_⟩
    rw [hrec.2 a ha, hstep.2 a ha, List.map_cons, List.foldl_cons]

theorem foldl_max_from (l : List Nat) :
    ∀ a : Nat, l.foldl max a = max a (l.foldr max 0) := by
  induction l with
  | nil => intro a; simp
  | cons b l ih =>
    intro a
    rw [List.foldl_cons, ih (max a b), List.foldr_cons]
    omega

theorem pySlice_eq_drop_take {α : Type} (l : List α) (s W : Nat)
    (hs : s ≤ l.length) :
    pySlice l (s : Int) ((s : Int) + (W : Int)) = (l.drop s).take W := by
  have h1 : ¬ ((s : Int) < 0) := by omega
  have h2 : ¬ ((s : Int) + (W : Int) < 0) := by omega
  have h3 : ((s : Int) + (W : Int)).toNat = s + W := by omega
  have h4 : ((s : Int)).toNat = s := by omega
  simp only [pySlice, pyIndexClamp, if_neg h1, if_neg h2, h3, h4]
  rw [min_eq_left hs]
  by_cases hW : s + W ≤ l.length
  · rw [min_eq_left hW, List.take_drop]
  · rw [min_eq_right (by omega), List.take_length,
      List.take_of_length_le (by rw [List.length_drop]; omega)]

theorem analyze_chunks_unfold (level_rows : List (List Int)) (chunk : Int)
    (m : Dict Int (Int × Int)) :
    analyze_chunks level_rows chunk m
      = (pyRange 0 ((level_rows.length : Int) - chunk + 1)).foldl
          (chunk_step level_rows chunk m) (m.map (fun p => (p.1, 0))) :=
  rfl

/-- Claim C1: for every grid, window size `W` and mapping table, the analyzer
returns a table whose keys are exactly the mapping table's ids, and each id's
value is the maximum over every window start `0 .. L - W` of the number of
occurrences of that id among that window's cells; with `L < W` there are zero
windows and every value is 0 (`specMaxCount` is the spec-side definition of
that maximum). -/
theorem analyze_chunks_matches_spec (level_rows : List (List Int)) (W : Nat)
    (conv_map : Dict Int (Int × Int)) :
    (analyze_chunks level_rows (W : Int) conv_map).map Prod.fst
        = conv_map.map Prod.fst
    ∧ ∀ a : Int, (dfind conv_map a).isSome →
        dfind (analyze_chunks level_rows (W : Int) conv_map) a
          = some (specMaxCount level_rows W a) := by
  have hinit_keys : (conv_map.map (fun p => (p.1, (0 : Nat)))).map Prod.fst
      = conv_map.map Prod.fst := by
    rw [List.map_map]
    exact List.map_congr_left (fun q _ => rfl)
  have hloop := analyze_loop level_rows (W : Int) conv_map
    (pyRange 0 ((level_rows.length : Int) - (W : Int) + 1))
    (conv_map.map (fun p => (p.1, 0))) hinit_keys
  refine ⟨by rw [analyze_chunks_unfold]; exact hloop.1, ?_⟩
  intro a ha
  have hval := hloop.2 a ha
  have hinit0 : (dfind (conv_map.map (fun p => (p.1, (0 : Nat)))) a).getD 0
      = 0 := by
    rw [dfind_map_zero]
    cases dfind conv_map a <;> simp
  rw [hinit0] at hval
  have hsome : (dfind (analyze_chunks level_rows (W : Int) conv_map) a).isSome := by
    rw [dfind_isSome_iff, analyze_chunks_unfold, hloop.1]
    exact (dfind_isSome_iff conv_map a).mp ha
  obtain ⟨v, hv⟩ := Option.isSome_iff_exists.mp hsome
  rw [analyze_chunks_unfold] at hv
  rw [analyze_chunks_unfold, hv]
  rw [hv] at hval
  simp only [Option.getD_some] at hval
  subst hval
  by_cases hLW : level_rows.length < W
  · have hneg : (((level_rows.length : Int) - (W : Int) + 1) - 0).toNat = 0 := by
      omega
    rw [specMaxCount, if_pos hLW, pyRange, hneg]
    rfl
  · have hWL : W ≤ level_rows.length := le_of_not_lt hLW
    have hn : (((level_rows.length : Int) - (W : Int) + 1) - 0).toNat
        = level_rows.length - W + 1 := by omega
    have hmapeq :
        (pyRange 0 ((level_rows.length : Int) - (W : Int) + 1)).map
            (fun s => ((pySlice level_rows s (s + (W : Int))).flatten).count a)
          = (List.range (level_rows.length - W + 1)).map
              (fun s => windowCount level_rows W s a) := by
      rw [pyRange, hn, List.map_map]
      refine List.map_congr_left ?_
      intro i hi
      have hiL : i ≤ level_rows.length := by
        have := List.mem_range.mp hi
        omega
      simp only [Function.comp_apply]
      have h0i : (0 : Int) + (i : Int) = (i : Int) := by omega
      rw [h0i, pySlice_eq_drop_take level_rows i W hiL, windowCount]
    rw [hmapeq, specMaxCount, if_neg hLW, foldl_max_from]
    simp

/-- Witness for C1 at a concrete grid, window size and mapping. -/
theorem analyze_chunks_matches_spec_witness :
    dfind (analyze_chunks [[1,2,3,4,5]] ((1 : Nat) : Int) [(1,(0,0))]) 1
      = some (specMaxCount [[1,2,3,4,5]] 1 1) :=
  (analyze_chunks_matches_spec [[1,2,3,4,5]] 1 [(1,(0,0))]).2 1 (by decide)

end GeoBuffer
